import Mathlib

/-!
Verification of the `content_analyzer` repository (Python sources
`enhanced_scanner_json.py`, `json_to_csv.py`, `fetch_repos.py`) against its
natural-language specification.

The Python code is shallowly embedded over `List Char` ("`Str`" below):

* Lines of text and configured pattern strings are lists of characters.
* `re.IGNORECASE` matching is modelled by comparing `Char.toLower` images
  (the ASCII fragment of Python's semantics, which is all the
  configuration and tests exercise).
* The scanner's regex `rf'\b{re.escape(pattern)}\b'` is a regex-escaped
  literal between word boundaries, so its matching semantics is exactly:
  the literal occurs (case-insensitively) at some position with a
  `\b` word boundary on each side.  `\b` holds between two adjacent
  positions iff exactly one of the two surrounding characters is a word
  character (`[A-Za-z0-9_]`; positions outside the line count as
  non-word).
* The entries of `ignore_line_patterns` are passed to `re.search`
  unanchored; they are modelled as literal substrings searched
  case-insensitively (the "substring-style" fragment used by the spec).
* ripgrep's per-line reporting, its `-g` glob arguments as built by
  `scan_with_ripgrep`, its `filepath:line:content` stdout format, the
  Python-side parsing of that format, `int()` conversion, and the
  report-dictionary construction in `main` are each embedded by an
  executable definition below, named after the source construct.
-/

namespace ContentAnalyzer

/-- Character list standing for a Python string. -/
abbrev Str := List Char

/-! ## Line matcher: `word_pattern = rf'\b{re.escape(pattern)}\b'`, `re.IGNORECASE` -/

/-- Python regex word character (`\w` over ASCII): letter, digit or underscore. -/
def isWordChar (c : Char) : Bool := c.isAlphanum || c == '_'

/-- The escaped literal `pat` occurs at index `i` of `line`, case-insensitively
(`re.IGNORECASE` over ASCII: both sides lowered). -/
def occursAt (pat line : Str) (i : Nat) : Bool :=
  ((line.drop i).take pat.length).map Char.toLower == pat.map Char.toLower

/-- Whether the character at index `p` of `line` is a word character
(out-of-range counts as non-word, as at the ends of a regex subject). -/
def wordAt (line : Str) (p : Nat) : Bool :=
  match line.get? p with
  | some c => isWordChar c
  | none => false

/-- Python's `\b` assertion between positions `p-1` and `p` of `line`:
exactly one of the two neighbouring characters is a word character. -/
def boundaryAt (line : Str) (p : Nat) : Bool :=
  (if p == 0 then false else wordAt line (p - 1)) != wordAt line p

/-- The full regex `\b pat \b` matches `line` starting at index `i`. -/
def wordBoundedMatchAt (pat line : Str) (i : Nat) : Bool :=
  occursAt pat line i && boundaryAt line i && boundaryAt line (i + pat.length)

/-- First index `j` with `i ≤ j < i + fuel` satisfying `p`, scanning upward:
the leftmost-match rule of `re.search`. -/
def firstIdxFrom (p : Nat → Bool) (i : Nat) : Nat → Option Nat
  | 0 => none
  | fuel + 1 => if p i then some i else firstIdxFrom p (i + 1) fuel

/-- Index of the first (leftmost) word-bounded match of `pat` in `line`,
as found by `re.search(word_pattern, line_content, re.IGNORECASE)`. -/
def reSearchIdx (pat line : Str) : Option Nat :=
  firstIdxFrom (wordBoundedMatchAt pat line) 0 (line.length + 1)

/-- The word-bounded pattern matches somewhere in the line.  This is both
ripgrep's per-line verdict for the same regex (`-i`) and the truthiness of
the Python-side `re.search`. -/
def lineMatches (pat line : Str) : Bool :=
  (reSearchIdx pat line).isSome

/-- Model of `match.group() if match else pattern` (enhanced_scanner_json.py line 119):
the text of the first word-bounded match, in the line's own casing, falling
back to the configured pattern when there is no match. -/
def matchedTextOf (pat line : Str) : Str :=
  match reSearchIdx pat line with
  | some i => (line.drop i).take pat.length
  | none => pat

/-! ## Suppression: `should_ignore_line` (enhanced_scanner_json.py lines 54-59) -/

/-- An `ignore_line_patterns` entry occurs somewhere in the line
(`re.search(pattern, line, re.IGNORECASE)`, modelled for literal patterns:
unanchored case-insensitive substring search). -/
def substrMatch (pat line : Str) : Bool :=
  (List.range (line.length + 1)).any (occursAt pat line)

/-- Embedding of `should_ignore_line`: some ignore pattern is found in the line. -/
def should_ignore_line (line : Str) (ignore_patterns : List Str) : Bool :=
  ignore_patterns.any (fun p => substrMatch p line)

/-! ## Data model -/

/-- Python `str.strip()` over the ASCII fragment: drop leading and trailing
whitespace. -/
def strip (s : Str) : Str :=
  ((s.dropWhile Char.isWhitespace).reverse.dropWhile Char.isWhitespace).reverse

/-- One finding dictionary as appended by `scan_with_ripgrep`
(enhanced_scanner_json.py lines 121-128). -/
structure Finding where
  file_path : Str
  line_number : Int
  category : Str
  pattern_found : Str
  line_content : Str
  matched_text : Str
deriving DecidableEq

/-- One file in the scanned tree: its path (as ripgrep prints it) and its
lines of text. -/
structure FileData where
  path : Str
  lines : List Str
deriving DecidableEq

/-- The global scan configuration consumed by `scan_with_ripgrep`
(`file_extensions`, `exclude_dirs`, `exclude_files`,
`ignore_line_patterns` of the JSON config). -/
structure Config where
  file_extensions : List Str
  exclude_dirs : List Str
  exclude_files : List Str
  ignore_line_patterns : List Str
deriving DecidableEq

/-- A category table in dict insertion order: category name paired with its
ordered pattern list (descriptions are only printed, not modelled). -/
abbrev Categories := List (Str × List Str)

/-! ## File selection: the `-g` glob arguments (enhanced_scanner_json.py
lines 65-76) and ripgrep's glob semantics.

The code passes, in this order: `-g *{ext}` for every extension,
`-g !{dir}/` for every excluded directory, `-g !{file}` for every excluded
file.  ripgrep applies gitignore-style glob matching where the LAST
matching glob on the command line wins; when at least one non-negated
(whitelist) glob is present, a file matching no glob is excluded,
otherwise it is included.  For the three shapes the code generates:
`*X` matches a file whose base name ends with `X`; `X/` matches (and
prunes) any directory component named `X`; a plain `X` matches a file
whose base name is `X`. -/

/-- Split a character list at every occurrence of `sep`. -/
def splitChar (sep : Char) : Str → List Str
  | [] => [[]]
  | c :: cs =>
    if c == sep then [] :: splitChar sep cs
    else
      match splitChar sep cs with
      | [] => [[c]]
      | a :: rest => (c :: a) :: rest

/-- Base name of a path: the component after the last `/`. -/
def pathName (path : Str) : Str := (splitChar '/' path).getLastD []

/-- Directory components of a path (everything before the base name). -/
def pathDirs (path : Str) : List Str := (splitChar '/' path).dropLast

/-- The three glob shapes `scan_with_ripgrep` generates. -/
inductive GlobPat where
  | extGlob (ext : Str)
  | dirGlob (dir : Str)
  | fileGlob (file : Str)
deriving DecidableEq

/-- One `-g` argument: `negated = true` for the `!`-prefixed excludes. -/
structure Glob where
  negated : Bool
  pat : GlobPat
deriving DecidableEq

/-- The `type_args` list built by `scan_with_ripgrep`: extension includes,
then directory excludes, then file excludes (source order). -/
def typeArgs (cfg : Config) : List Glob :=
  cfg.file_extensions.map (fun e => ⟨false, GlobPat.extGlob e⟩)
    ++ cfg.exclude_dirs.map (fun d => ⟨true, GlobPat.dirGlob d⟩)
    ++ cfg.exclude_files.map (fun f => ⟨true, GlobPat.fileGlob f⟩)

/-- Whether one glob shape matches a file path. -/
def globPatMatches : GlobPat → Str → Bool
  | GlobPat.extGlob e, path => e.isSuffixOf (pathName path)
  | GlobPat.dirGlob d, path => (pathDirs path).any (fun c => c == d)
  | GlobPat.fileGlob f, path => pathName path == f

/-- ripgrep's verdict for a file under a `-g` glob list: the last matching
glob wins; with no matching glob the file is included unless whitelist
globs are present. -/
def rgAllows (globs : List Glob) (path : Str) : Bool :=
  match (globs.filter (fun g => globPatMatches g.pat path)).getLast? with
  | some g => !g.negated
  | none => !(globs.any (fun g => !g.negated))

/-- A file is searched by the ripgrep invocation iff its path passes the
generated glob list. -/
def fileEligible (cfg : Config) (path : Str) : Bool :=
  rgAllows (typeArgs cfg) path

/-! ## The scan (success path of `scan_with_ripgrep`, lines 80-128) -/

/-- The (path, 1-based line number, line content) triples ripgrep reports
for one pattern: every line of every eligible file on which the
word-bounded pattern matches, in file order then line order. -/
def rgOutput (cfg : Config) (pat : Str) (files : List FileData) : List (Str × Nat × Str) :=
  (files.filter (fun f => fileEligible cfg f.path)).flatMap (fun f =>
    f.lines.enum.filterMap (fun pr =>
      if lineMatches pat pr.2 then some (f.path, pr.1 + 1, pr.2) else none))

/-- Processing of one reported line (enhanced_scanner_json.py lines
113-128): suppressed lines yield nothing, otherwise one finding with the
raw content stripped and the first matched substring extracted. -/
def scanTriple (cat pat : Str) (ignore : List Str) (t : Str × Nat × Str) : Option Finding :=
  if should_ignore_line t.2.2 ignore then none
  else some
    { file_path := t.1
      line_number := Int.ofNat t.2.1
      category := cat
      pattern_found := pat
      line_content := strip t.2.2
      matched_text := matchedTextOf pat t.2.2 }

/-- All findings for one (category, pattern) pair. -/
def scanPattern (cfg : Config) (cat pat : Str) (files : List FileData) : List Finding :=
  (rgOutput cfg pat files).filterMap (scanTriple cat pat cfg.ignore_line_patterns)

/-- Embedding of `scan_with_ripgrep`: categories in dict order, patterns in config
order, findings concatenated. -/
def scan_with_ripgrep (cfg : Config) (cats : Categories) (files : List FileData) : List Finding :=
  cats.flatMap (fun cp => cp.2.flatMap (fun p => scanPattern cfg cp.1 p files))

/-! ## Report aggregation (`main`, enhanced_scanner_json.py lines 260-275) -/

/-- Python dict assignment `d[k] = v`: update in place when the key exists,
otherwise append at the end. -/
def dictInsert {α : Type} (d : List (Str × α)) (k : Str) (v : α) : List (Str × α) :=
  if d.any (fun kv => kv.1 == k) then
    d.map (fun kv => if kv.1 == k then (k, v) else kv)
  else d ++ [(k, v)]

/-- Python dict lookup `d[k]` (as an option). -/
def reportLookup {α : Type} (d : List (Str × α)) (k : Str) : Option α :=
  (d.find? (fun kv => kv.1 == k)).map (fun kv => kv.2)

/-- The report-building loop of `main`: per scanned repository, the finding
list is stored under the repository name only when non-empty
(`if findings: report[repo_name] = findings`). -/
def buildReport (scans : List (Str × List Finding)) : List (Str × List Finding) :=
  scans.foldl (fun rep s => if s.2.isEmpty then rep else dictInsert rep s.1 s.2) []

/-! ## Error model of the ripgrep invocation (lines 88-137).

`subprocess.run` is called WITHOUT `check=True`, so it never raises
`CalledProcessError`; it either returns a completed process (with a return
code consulted as `result.returncode == 0`) or raises `FileNotFoundError`
when the `rg` binary is absent, which the code answers with `exit(1)`.
The `except subprocess.CalledProcessError` branch at lines 130-132 is
consequently unreachable. -/

/-- Outcome of one ripgrep invocation: a completed run with return code
and (already parsed) stdout triples, or `FileNotFoundError`. -/
inductive RgRun where
  | ran (returncode : Int) (stdout : List (Str × Nat × Str))
  | notFound
deriving DecidableEq

/-- One pattern's scan under an invocation environment: a missing tool
exits the whole process with status 1; a completed run with non-zero
return code contributes no findings (silently — the dead handler never
prints its warning); return code 0 processes the reported lines. -/
def scanPatternE (env : Str → RgRun) (ignore : List Str) (cat pat : Str) :
    Except Nat (List Finding) :=
  match env pat with
  | RgRun.notFound => Except.error 1
  | RgRun.ran rc out =>
    Except.ok (if rc == 0 then out.filterMap (scanTriple cat pat ignore) else [])

/-- Embedding of `scan_with_ripgrep` over the invocation environment: the category and
pattern loops, short-circuited by a process exit. -/
def scanE (env : Str → RgRun) (cats : Categories) (ignore : List Str) :
    Except Nat (List Finding) :=
  (cats.flatMap (fun cp => cp.2.map (fun p => (cp.1, p)))).foldlM
    (fun acc cp => (scanPatternE env ignore cp.1 cp.2).map (fun fs => acc ++ fs)) []

/-- The repository loop of `main` under per-repository invocation
environments: each repository is scanned in turn and stored under its name
when findings exist; a process exit aborts the whole batch. -/
def runBatch (repoEnvs : List (Str × (Str → RgRun))) (cats : Categories)
    (ignore : List Str) : Except Nat (List (Str × List Finding)) :=
  repoEnvs.foldlM
    (fun rep re => (scanE re.2 cats ignore).map
      (fun fs => if fs.isEmpty then rep else dictInsert rep re.1 fs)) []

/-! ## Decimal rendering (ripgrep's line numbers, `str` of an int) -/

/-- Decimal digit character for `d < 10`. -/
def digitChar : Nat → Char
  | 0 => '0' | 1 => '1' | 2 => '2' | 3 => '3' | 4 => '4'
  | 5 => '5' | 6 => '6' | 7 => '7' | 8 => '8' | _ => '9'

/-- Fuelled most-significant-first decimal expansion. -/
def natDigitsAux : Nat → Nat → Str → Str
  | 0, _, acc => acc
  | fuel + 1, n, acc =>
    if n = 0 then acc else natDigitsAux fuel (n / 10) (digitChar (n % 10) :: acc)

/-- Decimal rendering of a natural number. -/
def natDigits (n : Nat) : Str :=
  if n = 0 then ['0'] else natDigitsAux (n + 1) n []

/-- Decimal rendering of an integer (Python `str(int)`). -/
def intToStr (i : Int) : Str :=
  if i < 0 then '-' :: natDigits i.natAbs else natDigits i.natAbs

/-! ## CSV serialization.

`enhanced_scanner_json.convert_json_to_csv` (lines 169-190) and the
standalone `json_to_csv.convert_json_to_csv` (json_to_csv.py lines 9-36)
each write a header row of `fieldnames` and then one row per finding per
repository, with cell values taken from the finding in `fieldnames`
order. -/

/-- The `fieldnames` list of `enhanced_scanner_json.convert_json_to_csv`. -/
def enhanced_fieldnames : List Str :=
  ["repository".data, "file_path".data, "line_number".data, "category".data,
   "pattern_found".data, "line_content".data, "matched_text".data]

/-- The `fieldnames` list of `json_to_csv.convert_json_to_csv`: it stops at
`line_content` and has no `matched_text` column. -/
def json_to_csv_fieldnames : List Str :=
  ["repository".data, "file_path".data, "line_number".data, "category".data,
   "pattern_found".data, "line_content".data]

/-- One CSV row written by `enhanced_scanner_json.convert_json_to_csv`. -/
def enhancedRow (repo : Str) (f : Finding) : List Str :=
  [repo, f.file_path, intToStr f.line_number, f.category, f.pattern_found,
   f.line_content, f.matched_text]

/-- One CSV row written by `json_to_csv.convert_json_to_csv`. -/
def jsonToCsvRow (repo : Str) (f : Finding) : List Str :=
  [repo, f.file_path, intToStr f.line_number, f.category, f.pattern_found,
   f.line_content]

/-- All data rows of the scanner's own CSV output, in report order. -/
def enhancedCsvRows (report : List (Str × List Finding)) : List (List Str) :=
  report.flatMap (fun rf => rf.2.map (enhancedRow rf.1))

/-- All data rows of the standalone converter's CSV output. -/
def jsonToCsvRows (report : List (Str × List Finding)) : List (List Str) :=
  report.flatMap (fun rf => rf.2.map (jsonToCsvRow rf.1))

/-! ## Textual output parsing (enhanced_scanner_json.py lines 101-128).

ripgrep prints `filepath:line_number:line_content`; the code does
`line.split(':', 2)`, requires at least three parts, and converts the
middle part with a bare `int(...)`; a `ValueError` from that conversion is
caught nowhere in the program. -/

/-- Split at the first `:`, returning the pieces before and after it. -/
def breakColon : Str → Option (Str × Str)
  | [] => none
  | c :: cs =>
    if c == ':' then some ([], cs)
    else
      match breakColon cs with
      | none => none
      | some (a, b) => some (c :: a, b)

/-- Python `line.split(':', 2)`. -/
def pySplitColon2 (s : Str) : List Str :=
  match breakColon s with
  | none => [s]
  | some (a, r) =>
    match breakColon r with
    | none => [a, r]
    | some (b, r2) => [a, b, r2]

/-- Numeric value of a digit string. -/
def digitsToNat (s : Str) : Nat :=
  s.foldl (fun acc c => acc * 10 + (c.toNat - 48)) 0

/-- Python `int(str)`: optional surrounding whitespace, optional sign, then
decimal digits; anything else raises `ValueError` (`none` here; digit
grouping underscores are not modelled). -/
def pyInt (s : Str) : Option Int :=
  match strip s with
  | '+' :: ds =>
    if !ds.isEmpty && ds.all Char.isDigit then some (Int.ofNat (digitsToNat ds)) else none
  | '-' :: ds =>
    if !ds.isEmpty && ds.all Char.isDigit then some (-(Int.ofNat (digitsToNat ds))) else none
  | ds =>
    if !ds.isEmpty && ds.all Char.isDigit then some (Int.ofNat (digitsToNat ds)) else none

/-- One stdout line as ripgrep formats it. -/
def rgStdoutLine (fp : Str) (n : Nat) (content : Str) : Str :=
  fp ++ ':' :: natDigits n ++ ':' :: content

/-- The raw stdout of one ripgrep invocation. -/
def rgStdout (cfg : Config) (pat : Str) (files : List FileData) : List Str :=
  (rgOutput cfg pat files).map (fun t => rgStdoutLine t.1 t.2.1 t.2.2)

/-- The per-line body of the stdout loop (lines 102-128): empty lines are
skipped, lines with fewer than three `:`-parts are skipped, suppressed
lines are skipped, and otherwise the middle part must parse as an integer
or the loop dies with `ValueError`. -/
def processRgTextLine (ignore : List Str) (cat pat : Str) (line : Str) :
    Except Unit (Option Finding) :=
  if line.isEmpty then Except.ok none
  else
    match pySplitColon2 line with
    | [fp, ln, content] =>
      if should_ignore_line content ignore then Except.ok none
      else
        match pyInt ln with
        | none => Except.error ()
        | some n => Except.ok (some
            { file_path := fp
              line_number := n
              category := cat
              pattern_found := pat
              line_content := strip content
              matched_text := matchedTextOf pat content })
    | _ => Except.ok none

/-- One pattern's scan working from ripgrep's textual stdout, as the code
does; `Except.error ()` is the uncaught `ValueError`. -/
def textScanPattern (cfg : Config) (cat pat : Str) (files : List FileData) :
    Except Unit (List Finding) :=
  (rgStdout cfg pat files).foldlM
    (fun acc line =>
      (processRgTextLine cfg.ignore_line_patterns cat pat line).map
        (fun o => acc ++ o.toList)) []

/-- Invocation environment of a machine without ripgrep installed. -/
def missingEnv : Str → RgRun := fun _ => RgRun.notFound

/-- Invocation environment where every pattern's search completes with one
reported line from `a.py`. -/
def okEnv : Str → RgRun :=
  fun _ => RgRun.ran 0 [("a.py".data, 1, "eval(x)".data)]

/-! ## Concrete sample data for witnesses and counterexamples -/

/-- A sample finding used by concrete instances below. -/
def sampleFinding : Finding :=
  { file_path := "a.py".data
    line_number := 1
    category := "sec".data
    pattern_found := "eval".data
    line_content := "eval(x)".data
    matched_text := "eval".data }

/-- A configuration with no globs and no suppression patterns. -/
def plainConfig : Config :=
  { file_extensions := []
    exclude_dirs := []
    exclude_files := []
    ignore_line_patterns := [] }

/-! ### Basic lemmas about the leftmost-match search -/

theorem firstIdxFrom_sound {p : Nat → Bool} :
    ∀ fuel i j, firstIdxFrom p i fuel = some j →
      p j = true ∧ i ≤ j ∧ j < i + fuel ∧ ∀ m, i ≤ m → m < j → p m = false := by
  intro fuel
  induction fuel with
  | zero => intro i j h; simp [firstIdxFrom] at h
  | succ n ih =>
    intro i j h
    rw [firstIdxFrom] at h
    by_cases hp : p i = true
    · simp [hp] at h
      subst h
      exact ⟨hp, Nat.le_refl _, Nat.lt_add_of_pos_right (Nat.succ_pos n),
        fun m h1 h2 => absurd (Nat.lt_of_lt_of_le h2 h1) (Nat.lt_irrefl m)⟩
    · simp [hp] at h
      obtain ⟨hj, hij, hlt, hmin⟩ := ih (i + 1) j h
      refine ⟨hj, Nat.le_of_succ_le hij, by omega, ?_⟩
      intro m h1 h2
      rcases Nat.eq_or_lt_of_le h1 with rfl | h1'
      · exact Bool.eq_false_iff.mpr hp
      · exact hmin m h1' h2

theorem firstIdxFrom_complete {p : Nat → Bool} :
    ∀ fuel i j, i ≤ j → j < i + fuel → p j = true →
      (firstIdxFrom p i fuel).isSome = true := by
  intro fuel
  induction fuel with
  | zero => intro i j h1 h2 _; omega
  | succ n ih =>
    intro i j h1 h2 hp
    rw [firstIdxFrom]
    by_cases hpi : p i = true
    · simp [hpi]
    · simp [hpi]
      rcases Nat.eq_or_lt_of_le h1 with rfl | h1'
      · exact absurd hp hpi
      · exact ih (i + 1) j h1' (by omega) hp

/-- A word-bounded match never starts beyond the end of the line. -/
theorem wordBoundedMatchAt_le_length {pat line : Str} {i : Nat}
    (h : wordBoundedMatchAt pat line i = true) : i ≤ line.length := by
  by_contra hgt
  push_neg at hgt
  have hocc : occursAt pat line i = true := by
    simp [wordBoundedMatchAt] at h; exact h.1.1
  have hb : boundaryAt line i = true := by
    simp [wordBoundedMatchAt] at h; exact h.1.2
  have hdrop : line.drop i = [] := List.drop_eq_nil_of_le (Nat.le_of_lt hgt)
  have hw : wordAt line i = false := by
    have h1 : line.get? i = none := List.get?_eq_none.mpr (Nat.le_of_lt hgt)
    simp only [wordAt, h1]
  have hw' : wordAt line (i - 1) = false := by
    have h1 : line.get? (i - 1) = none := List.get?_eq_none.mpr (by omega)
    simp only [wordAt, h1]
  rw [boundaryAt, hw] at hb
  by_cases hi : i = 0 <;> simp [hi, hw'] at hb

/-- The scanner's matcher verdict is equivalent to the existence of a
word-bounded occurrence. -/
theorem lineMatches_iff_exists {pat line : Str} :
    lineMatches pat line = true ↔
      ∃ i, i ≤ line.length ∧ wordBoundedMatchAt pat line i = true := by
  constructor
  · intro h
    rw [lineMatches, reSearchIdx] at h
    cases hfind : firstIdxFrom (wordBoundedMatchAt pat line) 0 (line.length + 1) with
    | none => rw [hfind] at h; simp at h
    | some j =>
      obtain ⟨hj, _, hlt, _⟩ := firstIdxFrom_sound _ _ _ hfind
      exact ⟨j, by omega, hj⟩
  · rintro ⟨i, hle, hi⟩
    rw [lineMatches, reSearchIdx]
    exact firstIdxFrom_complete (line.length + 1) 0 i (Nat.zero_le i) (by omega) hi

/-! ## Claim C1 -/

/-- C1: for every configured pattern string and every line of text, the
matcher matches iff the word-bounded, regex-escaped form of the pattern
occurs in the line; in particular the pattern `eval` matches the line
`x = eval(y)` and does not match `x = evaluate(y)`, and a pattern never
matches strictly inside a longer word (a match position flanked by word
characters on either edge is rejected by the boundary assertions). -/
theorem C1_word_boundary :
    (∀ pat line : Str, lineMatches pat line = true ↔
       ∃ i, i ≤ line.length ∧ wordBoundedMatchAt pat line i = true)
    ∧ lineMatches "eval".data "x = eval(y)".data = true
    ∧ lineMatches "eval".data "x = evaluate(y)".data = false
    ∧ (∀ (pat line : Str) (i : Nat), 1 ≤ i →
        wordAt line (i - 1) = true → wordAt line i = true →
        wordBoundedMatchAt pat line i = false)
    ∧ (∀ (pat line : Str) (i : Nat), pat ≠ [] →
        wordAt line (i + pat.length - 1) = true →
        wordAt line (i + pat.length) = true →
        wordBoundedMatchAt pat line i = false) := by
  refine ⟨fun pat line => lineMatches_iff_exists, by decide, by decide, ?_, ?_⟩
  · intro pat line i h1 hl hr
    have hz : (i == 0) = false := beq_eq_false_iff_ne.mpr (by omega)
    simp [wordBoundedMatchAt, boundaryAt, hz, hl, hr]
  · intro pat line i hpat hl hr
    have hlen : 1 ≤ pat.length := List.length_pos.mpr hpat
    have hz : (i + pat.length == 0) = false :=
      beq_eq_false_iff_ne.mpr (by omega)
    simp [wordBoundedMatchAt, boundaryAt, hz, hl, hr]

/-- Witness for C1 at concrete inputs: the `eval` examples, and the
rejection of the occurrence of `eval` inside `evaluate` at index 4. -/
theorem C1_word_boundary_witness :
    lineMatches "eval".data "x = eval(y)".data = true ∧
    wordBoundedMatchAt "eval".data "x = evaluate(y)".data 4 = false :=
  ⟨C1_word_boundary.2.1,
   C1_word_boundary.2.2.2.2 "eval".data "x = evaluate(y)".data 4
     (by decide) (by decide) (by decide)⟩

/-! ## Claim C5 -/

/-- C5: for every confirmed match, the finding's `matched_text` equals the
first substring of the line satisfying the word-bounded pattern under
case-insensitive matching, taken from the line itself (so with the line's
casing): the search index is minimal, the extracted text is the slice of
the line at that index, and every finding built from the line carries it;
concretely, pattern `TODO` against `// todo: fix` yields `todo`. -/
theorem C5_matched_text :
    (∀ pat line : Str, lineMatches pat line = true →
      ∃ i, reSearchIdx pat line = some i
        ∧ wordBoundedMatchAt pat line i = true
        ∧ (∀ j, j < i → wordBoundedMatchAt pat line j = false)
        ∧ matchedTextOf pat line = (line.drop i).take pat.length
        ∧ ∀ (cat : Str) (ignore : List Str) (fp : Str) (n : Nat) (f : Finding),
            scanTriple cat pat ignore (fp, n, line) = some f →
            f.matched_text = (line.drop i).take pat.length)
    ∧ matchedTextOf "TODO".data "// todo: fix".data = "todo".data := by
  refine ⟨?_, by decide⟩
  intro pat line h
  rw [lineMatches] at h
  obtain ⟨i, hfind⟩ := Option.isSome_iff_exists.mp h
  obtain ⟨hi, _, _, hmin⟩ :=
    firstIdxFrom_sound _ _ _ (by simpa [reSearchIdx] using hfind)
  have hm : matchedTextOf pat line = (line.drop i).take pat.length := by
    simp only [matchedTextOf, hfind]
  refine ⟨i, hfind, hi, fun j hj => hmin j (Nat.zero_le j) hj, hm, ?_⟩
  intro cat ignore fp n f hf
  simp only [scanTriple] at hf
  by_cases hig : should_ignore_line line ignore
  · simp [hig] at hf
  · simp [hig] at hf
    rw [← hf]
    simpa using hm

/-- Witness for C5 at the concrete spec example: pattern `TODO`, line
`// todo: fix`, matched text `todo` extracted at index 3. -/
theorem C5_matched_text_witness :
    ∃ i, reSearchIdx "TODO".data "// todo: fix".data = some i
      ∧ matchedTextOf "TODO".data "// todo: fix".data =
          (("// todo: fix".data).drop i).take ("TODO".data).length :=
  match C5_matched_text.1 "TODO".data "// todo: fix".data (by decide) with
  | ⟨i, h1, _, _, h4, _⟩ => ⟨i, h1, h4⟩

/-! ## Per-line scan helper -/

/-- Scanning a single one-line file for one (category, pattern) pair:
a finding is produced exactly when the file passes the globs, the
word-bounded pattern matches the line, and no ignore pattern fires. -/
theorem scanPattern_single (cfg : Config) (cat pat fp content : Str) :
    scanPattern cfg cat pat [⟨fp, [content]⟩] =
      if fileEligible cfg fp && lineMatches pat content
          && !should_ignore_line content cfg.ignore_line_patterns then
        [{ file_path := fp
           line_number := 1
           category := cat
           pattern_found := pat
           line_content := strip content
           matched_text := matchedTextOf pat content }]
      else [] := by
  by_cases h1 : fileEligible cfg fp
    <;> by_cases h2 : lineMatches pat content
      <;> by_cases h3 : should_ignore_line content cfg.ignore_line_patterns
        <;> simp [scanPattern, rgOutput, scanTriple, List.enum, List.enumFrom,
              h1, h2, h3]

/-! ## Claim C2 -/

/-- C2: a line produces a finding iff the word-bounded pattern matches it
and no entry of the ignore-pattern list is found anywhere in the line
(case-insensitive substring-style search); moreover one firing ignore
pattern suppresses every finding on that line, for every category and
pattern of the rule set. -/
theorem C2_suppression_veto :
    ∀ (cfg : Config) (fp content : Str), fileEligible cfg fp = true →
      (∀ cat pat : Str,
        scanPattern cfg cat pat [⟨fp, [content]⟩] ≠ [] ↔
          (lineMatches pat content = true ∧
           should_ignore_line content cfg.ignore_line_patterns = false))
      ∧ (should_ignore_line content cfg.ignore_line_patterns = true →
         ∀ cats : Categories, scan_with_ripgrep cfg cats [⟨fp, [content]⟩] = []) := by
  intro cfg fp content helig
  constructor
  · intro cat pat
    rw [scanPattern_single, helig]
    by_cases h2 : lineMatches pat content
      <;> by_cases h3 : should_ignore_line content cfg.ignore_line_patterns
        <;> simp [h2, h3]
  · intro hig cats
    rw [scan_with_ripgrep, List.flatMap_eq_nil_iff]
    intro cp _
    rw [List.flatMap_eq_nil_iff]
    intro p _
    rw [scanPattern_single, hig]
    simp

/-- Witness for C2 at the spec's example: `ignoreLinePatterns =
["test_only"]` vetoes a line containing both a pattern match and the
substring `test_only`, for a rule set with two categories. -/
theorem C2_suppression_veto_witness :
    scan_with_ripgrep
      { plainConfig with ignore_line_patterns := ["test_only".data] }
      [("sec".data, ["eval".data]), ("debug".data, ["print".data])]
      [⟨"a.py".data, ["print(eval(x))  # test_only".data]⟩] = [] :=
  (C2_suppression_veto
      { plainConfig with ignore_line_patterns := ["test_only".data] }
      "a.py".data "print(eval(x))  # test_only".data (by decide)).2
    (by decide)
    [("sec".data, ["eval".data]), ("debug".data, ["print".data])]

/-! ## Claim C6 -/

/-- C6: a line matching non-suppressed patterns from two different
categories produces exactly two findings — one per (category, pattern)
pair, in category order, each carrying its own category and pattern — with
no deduplication. -/
theorem C6_multi_category :
    ∀ (cfg : Config) (c1 c2 p1 p2 fp content : Str),
      fileEligible cfg fp = true →
      lineMatches p1 content = true → lineMatches p2 content = true →
      should_ignore_line content cfg.ignore_line_patterns = false →
      scan_with_ripgrep cfg [(c1, [p1]), (c2, [p2])] [⟨fp, [content]⟩] =
        [{ file_path := fp
           line_number := 1
           category := c1
           pattern_found := p1
           line_content := strip content
           matched_text := matchedTextOf p1 content },
         { file_path := fp
           line_number := 1
           category := c2
           pattern_found := p2
           line_content := strip content
           matched_text := matchedTextOf p2 content }] := by
  intro cfg c1 c2 p1 p2 fp content helig h1 h2 hig
  simp [scan_with_ripgrep, scanPattern_single, helig, h1, h2, hig]

/-- Witness for C6: a line containing both `eval` and `print`, scanned
under a security category and a debug category, yields exactly the two
findings. -/
theorem C6_multi_category_witness :
    scan_with_ripgrep plainConfig
      [("sec".data, ["eval".data]), ("debug".data, ["print".data])]
      [⟨"a.py".data, ["print(eval(x))".data]⟩] =
      [{ file_path := "a.py".data
         line_number := 1
         category := "sec".data
         pattern_found := "eval".data
         line_content := "print(eval(x))".data
         matched_text := "eval".data },
       { file_path := "a.py".data
         line_number := 1
         category := "debug".data
         pattern_found := "print".data
         line_content := "print(eval(x))".data
         matched_text := "print".data }] := by
  have h := C6_multi_category plainConfig "sec".data "debug".data
    "eval".data "print".data "a.py".data "print(eval(x))".data
    (by decide) (by decide) (by decide) (by decide)
  rw [h]
  decide

/-! ## Report aggregation lemmas -/

/-- Every element of `dictInsert d k v` is an old element or the new pair. -/
theorem mem_dictInsert {α : Type} {d : List (Str × α)} {k : Str} {v : α}
    {kv : Str × α} (h : kv ∈ dictInsert d k v) : kv ∈ d ∨ kv = (k, v) := by
  rw [dictInsert] at h
  by_cases hk : d.any (fun kv => kv.1 == k)
  · rw [if_pos hk] at h
    obtain ⟨kv0, hkv0, heq⟩ := List.mem_map.mp h
    by_cases h0 : kv0.1 == k
    · rw [if_pos h0] at heq; exact Or.inr heq.symm
    · rw [if_neg h0] at heq; exact Or.inl (heq ▸ hkv0)
  · rw [if_neg hk] at h
    rcases List.mem_append.mp h with h' | h'
    · exact Or.inl h'
    · exact Or.inr (List.mem_singleton.mp h')

/-- Every element of the report fold is an element of the accumulator or a
scanned pair with a non-empty finding list. -/
theorem buildReport_fold_mem :
    ∀ (scans : List (Str × List Finding)) (rep : List (Str × List Finding))
      (kv : Str × List Finding),
      kv ∈ scans.foldl
          (fun rep s => if s.2.isEmpty then rep else dictInsert rep s.1 s.2) rep →
      kv ∈ rep ∨ (kv ∈ scans ∧ kv.2 ≠ []) := by
  intro scans
  induction scans with
  | nil => intro rep kv h; exact Or.inl h
  | cons s rest ih =>
    intro rep kv h
    rw [List.foldl_cons] at h
    rcases ih _ kv h with h' | h'
    · by_cases hs : s.2.isEmpty
      · rw [if_pos hs] at h'; exact Or.inl h'
      · rw [if_neg hs] at h'
        rcases mem_dictInsert h' with h'' | h''
        · exact Or.inl h''
        · refine Or.inr ⟨h'' ▸ List.mem_cons_self s rest, ?_⟩
          rw [h'']
          simpa [List.isEmpty_iff] using hs
    · exact Or.inr ⟨List.mem_cons_of_mem s h'.1, h'.2⟩

/-- In the mapped branch of a dict assignment, the updated pair is found. -/
theorem find?_map_update {α : Type} {k : Str} {v : α} :
    ∀ d : List (Str × α), d.any (fun kv => kv.1 == k) = true →
      (d.map (fun kv => if kv.1 == k then (k, v) else kv)).find?
          (fun kv => kv.1 == k) = some (k, v) := by
  intro d
  induction d with
  | nil => intro h; simp at h
  | cons a t ih =>
    intro h
    by_cases ha : (a.1 == k) = true
    · simp only [List.map_cons, if_pos ha]
      exact List.find?_cons_of_pos _ (by simp)
    · simp only [List.map_cons, if_neg ha]
      rw [List.find?_cons_of_neg _ (by simpa using ha)]
      apply ih
      rw [List.any_cons, Bool.eq_false_iff.mpr ha, Bool.false_or] at h
      exact h

/-- In the appending branch of a dict assignment, lookup reaches the new
pair. -/
theorem find?_append_new {α : Type} {k : Str} {v : α} :
    ∀ d : List (Str × α), d.any (fun kv => kv.1 == k) = false →
      (d ++ [(k, v)]).find? (fun kv => kv.1 == k) = some (k, v) := by
  intro d
  induction d with
  | nil =>
    intro _
    rw [List.nil_append]
    exact List.find?_cons_of_pos _ (by simp)
  | cons a t ih =>
    intro h
    have ha : (a.1 == k) = false := by
      cases hb : (a.1 == k) with
      | false => rfl
      | true =>
        rw [List.any_cons, hb, Bool.true_or] at h
        exact absurd h (by simp)
    rw [List.cons_append,
      List.find?_cons_of_neg _ (by simp [ha])]
    apply ih
    rw [List.any_cons, ha, Bool.false_or] at h
    exact h

/-- Looking up the assigned key after a dict assignment yields the
assigned value. -/
theorem reportLookup_dictInsert {α : Type} (d : List (Str × α)) (k : Str) (v : α) :
    reportLookup (dictInsert d k v) k = some v := by
  rw [dictInsert]
  by_cases h : d.any (fun kv => kv.1 == k)
  · rw [if_pos h, reportLookup, find?_map_update d h]
    rfl
  · rw [if_neg h, reportLookup, find?_append_new d (Bool.eq_false_iff.mpr h)]
    rfl

/-! ## Claim C7 -/

/-- C7: a repository whose scan yields zero findings never appears as a
key of the built report, and every key present in the report maps to a
non-empty finding list. -/
theorem C7_empty_omission :
    ∀ scans : List (Str × List Finding),
      (∀ k : Str, (∀ fs, (k, fs) ∈ scans → fs = []) →
         ∀ v, (k, v) ∉ buildReport scans)
      ∧ (∀ (k : Str) (v : List Finding), (k, v) ∈ buildReport scans → v ≠ []) := by
  intro scans
  constructor
  · intro k hall v hmem
    rcases buildReport_fold_mem scans [] (k, v) hmem with h | h
    · simp at h
    · exact h.2 (hall v h.1)
  · intro k v hmem
    rcases buildReport_fold_mem scans [] (k, v) hmem with h | h
    · simp at h
    · exact h.2

/-- Witness for C7: a batch whose only repository scans to zero findings
builds a report without that repository's key. -/
theorem C7_empty_omission_witness :
    ("r".data, ([] : List Finding)) ∉ buildReport [("r".data, [])] :=
  (C7_empty_omission [("r".data, [])]).1 "r".data
    (by
      intro fs h
      rw [List.mem_singleton] at h
      exact (Prod.mk.injEq _ _ _ _ ▸ h).2)
    []

/-! ## Claim C9 -/

/-- C9 counterexample: two repositories of the same name where the
later-scanned one yields zero findings.  The claim says the report keeps
only the later repository's findings under the shared key; in fact the
`if findings:` guard skips the empty assignment, so the earlier
repository's findings remain. -/
theorem C9_duplicate_name_cex :
    buildReport [("r".data, [sampleFinding]), ("r".data, [])] =
      [("r".data, [sampleFinding])]
    ∧ reportLookup (buildReport [("r".data, [sampleFinding]), ("r".data, [])])
        "r".data ≠ some [] := by
  constructor
  · rfl
  · decide

/-- C9 as amended: when the later-scanned duplicate yields a NON-EMPTY
finding list, the dict assignment silently overwrites the earlier
repository's findings (no merge, no error); a later duplicate with zero
findings performs no assignment at all. -/
theorem C9_duplicate_name_amended :
    ∀ (scans : List (Str × List Finding)) (k : Str) (fs : List Finding),
      fs ≠ [] →
      reportLookup (buildReport (scans ++ [(k, fs)])) k = some fs := by
  intro scans k fs hfs
  rw [buildReport, List.foldl_append]
  simp only [List.foldl_cons, List.foldl_nil]
  rw [if_neg (by simpa [List.isEmpty_iff] using hfs)]
  exact reportLookup_dictInsert _ k fs

/-- Witness for the amended C9: a concrete batch with a duplicated
repository name where the later, non-empty scan wins. -/
theorem C9_duplicate_name_amended_witness :
    reportLookup
      (buildReport ([("r".data, [sampleFinding])] ++ [("r".data,
        [{ sampleFinding with category := "debug".data }])]))
      "r".data = some [{ sampleFinding with category := "debug".data }] :=
  C9_duplicate_name_amended [("r".data, [sampleFinding])] "r".data
    [{ sampleFinding with category := "debug".data }] (by decide)

/-! ## Glob lemmas for C8 -/

/-- The element a `getLast?` returns belongs to the list. -/
theorem mem_of_getLast?_eq_some {α : Type} {l : List α} {a : α}
    (h : l.getLast? = some a) : a ∈ l := by
  obtain ⟨ys, rfl⟩ := List.getLast?_eq_some_iff.mp h
  exact List.mem_append.mpr (Or.inr (List.mem_singleton.mpr rfl))

/-- When some glob in the trailing (all-negated) block matches the path,
ripgrep rejects the file: the last matching glob is negated. -/
theorem rgAllows_false_of_trailing_excl (pre post : List Glob) (path : Str)
    (hneg : ∀ g ∈ post, g.negated = true)
    (hmatch : ∃ g ∈ post, globPatMatches g.pat path = true) :
    rgAllows (pre ++ post) path = false := by
  rw [rgAllows]
  have hfil : post.filter (fun g => globPatMatches g.pat path) ≠ [] := by
    obtain ⟨g, hg, hgm⟩ := hmatch
    intro hnil
    exact absurd (List.mem_filter.mpr ⟨hg, hgm⟩) (hnil ▸ List.not_mem_nil g)
  rw [List.filter_append, List.getLast?_append]
  cases hlast : (post.filter (fun g => globPatMatches g.pat path)).getLast? with
  | none => exact absurd (List.getLast?_eq_none_iff.mp hlast) hfil
  | some g =>
    have hgmem : g ∈ post := (List.mem_filter.mp (mem_of_getLast?_eq_some hlast)).1
    simp [Option.or, hneg g hgmem]

/-- C8 helper: the glob list `scan_with_ripgrep` builds puts all the
negated (exclude) globs after all the whitelist (extension) globs. -/
theorem typeArgs_split (cfg : Config) :
    typeArgs cfg =
      cfg.file_extensions.map (fun e => ⟨false, GlobPat.extGlob e⟩)
        ++ (cfg.exclude_dirs.map (fun d => ⟨true, GlobPat.dirGlob d⟩)
            ++ cfg.exclude_files.map (fun f => ⟨true, GlobPat.fileGlob f⟩)) := by
  rw [typeArgs, List.append_assoc]

/-! ## Claim C8 -/

/-- C8: a file is ineligible whenever one of its directory components is
in `excludeDirs` or its base name is in `excludeFiles`, regardless of its
extension (exclusion overrides inclusion, the exclude globs coming after
the extension globs in ripgrep's last-match-wins order); and with an
empty `fileExtensions` list every non-excluded file is eligible. -/
theorem C8_exclusion_precedence :
    ∀ (cfg : Config) (path : Str),
      ((∃ c ∈ pathDirs path, c ∈ cfg.exclude_dirs) ∨
          pathName path ∈ cfg.exclude_files →
        fileEligible cfg path = false)
      ∧ (cfg.file_extensions = [] →
         (∀ c ∈ pathDirs path, c ∉ cfg.exclude_dirs) →
         pathName path ∉ cfg.exclude_files →
         fileEligible cfg path = true) := by
  intro cfg path
  constructor
  · intro hex
    rw [fileEligible, typeArgs_split]
    apply rgAllows_false_of_trailing_excl
    · intro g hg
      rcases List.mem_append.mp hg with h | h
        <;> obtain ⟨x, _, rfl⟩ := List.mem_map.mp h
        <;> rfl
    · rcases hex with ⟨c, hc, hcd⟩ | hf
      · refine ⟨⟨true, GlobPat.dirGlob c⟩,
          List.mem_append.mpr (Or.inl (List.mem_map.mpr ⟨c, hcd, rfl⟩)), ?_⟩
        simp only [globPatMatches, List.any_eq_true]
        exact ⟨c, hc, by simp⟩
      · refine ⟨⟨true, GlobPat.fileGlob (pathName path)⟩,
          List.mem_append.mpr (Or.inr (List.mem_map.mpr ⟨pathName path, hf, rfl⟩)), ?_⟩
        simp [globPatMatches]
  · intro hext hdirs hfile
    rw [fileEligible, typeArgs, hext, List.map_nil, List.nil_append]
    have hnil : (cfg.exclude_dirs.map (fun d => (⟨true, GlobPat.dirGlob d⟩ : Glob))
        ++ cfg.exclude_files.map (fun f => (⟨true, GlobPat.fileGlob f⟩ : Glob))).filter
          (fun g => globPatMatches g.pat path) = [] := by
      rw [List.filter_eq_nil_iff]
      intro g hg
      rcases List.mem_append.mp hg with h | h
      · obtain ⟨d, hd, rfl⟩ := List.mem_map.mp h
        simp only [globPatMatches, List.any_eq_true]
        rintro ⟨c, hc, hcd⟩
        exact hdirs c hc (beq_iff_eq.mp hcd ▸ hd)
      · obtain ⟨f, hf, rfl⟩ := List.mem_map.mp h
        simp only [globPatMatches]
        intro hcd
        exact hfile (beq_iff_eq.mp hcd ▸ hf)
    rw [rgAllows, hnil]
    simp only [List.getLast?_nil]
    rw [Bool.not_eq_true']
    rw [List.any_append]
    have h1 : (cfg.exclude_dirs.map (fun d => (⟨true, GlobPat.dirGlob d⟩ : Glob))).any
        (fun g => !g.negated) = false := by
      rw [List.any_eq_false]
      rintro g hg
      obtain ⟨d, _, rfl⟩ := List.mem_map.mp hg
      simp
    have h2 : (cfg.exclude_files.map (fun f => (⟨true, GlobPat.fileGlob f⟩ : Glob))).any
        (fun g => !g.negated) = false := by
      rw [List.any_eq_false]
      rintro g hg
      obtain ⟨f, _, rfl⟩ := List.mem_map.mp hg
      simp
    rw [h1, h2]
    rfl

/-- Witness for C8 at concrete inputs: a `.py` file inside `node_modules`
is excluded even though `.py` is an included extension; and with no
extension filter an unexcluded `.txt` file is eligible. -/
theorem C8_exclusion_precedence_witness :
    fileEligible ⟨[".py".data], ["node_modules".data], [], []⟩
        "node_modules/a.py".data = false
    ∧ fileEligible ⟨[], ["node_modules".data], ["secret.txt".data], []⟩
        "src/notes.txt".data = true :=
  ⟨(C8_exclusion_precedence ⟨[".py".data], ["node_modules".data], [], []⟩
      "node_modules/a.py".data).1
      (Or.inl ⟨"node_modules".data, by decide, by decide⟩),
   (C8_exclusion_precedence ⟨[], ["node_modules".data], ["secret.txt".data], []⟩
      "src/notes.txt".data).2 rfl (by decide) (by decide)⟩

/-! ## Claim C3 -/

/-- C3 counterexample: with the search tool missing (the
`FileNotFoundError` case, ripgrep not installed), scanning the FIRST
repository terminates the whole batch with exit status 1 — the second
repository, which alone would have produced a report entry, is never
reached.  This refutes the claim that a missing tool is skipped with a
warning and never terminates the run. -/
theorem C3_missing_tool_cex :
    runBatch [("r1".data, missingEnv), ("r2".data, okEnv)]
        [("sec".data, ["eval".data])] [] = Except.error 1
    ∧ runBatch [("r2".data, okEnv)] [("sec".data, ["eval".data])] [] =
        Except.ok [("r2".data,
          [{ file_path := "a.py".data
             line_number := 1
             category := "sec".data
             pattern_found := "eval".data
             line_content := "eval(x)".data
             matched_text := "eval".data }])] :=
  ⟨rfl, rfl⟩

/-- C3 as amended: a MISBEHAVING tool (completed invocation with non-zero
return code — the only non-success the code can observe, since
`subprocess.run` is called without `check=True` and the
`CalledProcessError` handler is dead code) silently contributes zero
findings for that pattern and the scan continues; only when no invocation
raises `FileNotFoundError` does the whole scan complete, because a missing
tool exits the entire process with status 1. -/
theorem C3_missing_tool_amended :
    ∀ (env : Str → RgRun) (cats : Categories) (ignore : List Str),
      ((∀ p : Str, env p ≠ RgRun.notFound) →
        ∃ fs, scanE env cats ignore = Except.ok fs)
      ∧ (∀ (cat pat : Str) (rc : Int) (out : List (Str × Nat × Str)),
          env pat = RgRun.ran rc out → rc ≠ 0 →
          scanPatternE env ignore cat pat = Except.ok []) := by
  intro env cats ignore
  constructor
  · intro hok
    have key : ∀ (l : List (Str × Str)) (acc : List Finding),
        ∃ fs, l.foldlM
          (fun acc cp =>
            (scanPatternE env ignore cp.1 cp.2).map (fun fs => acc ++ fs)) acc =
          Except.ok fs := by
      intro l
      induction l with
      | nil => intro acc; exact ⟨acc, rfl⟩
      | cons cp rest ih =>
        intro acc
        have hsome : ∃ v, scanPatternE env ignore cp.1 cp.2 = Except.ok v := by
          rw [scanPatternE]
          cases henv : env cp.2 with
          | ran rc out => exact ⟨_, rfl⟩
          | notFound => exact absurd henv (hok cp.2)
        obtain ⟨v, hv⟩ := hsome
        obtain ⟨fs, hfs⟩ := ih (acc ++ v)
        exact ⟨fs, by rw [List.foldlM_cons, hv]; exact hfs⟩
    exact key _ []
  · intro cat pat rc out henv hrc
    rw [scanPatternE, henv]
    simp only [beq_eq_false_iff_ne.mpr hrc]
    rfl

/-- Witness for the amended C3: under an environment where one pattern's
invocation completes with return code 2 and another with 0, the scan
completes, and the failing pattern alone yields the empty finding list. -/
theorem C3_missing_tool_amended_witness :
    (∃ fs, scanE
      (fun p => if p = "eval".data then RgRun.ran 2 [] else okEnv p)
      [("sec".data, ["eval".data, "exec".data])] [] = Except.ok fs)
    ∧ scanPatternE
        (fun p => if p = "eval".data then RgRun.ran 2 [] else okEnv p)
        [] "sec".data "eval".data = Except.ok [] :=
  ⟨(C3_missing_tool_amended
      (fun p => if p = "eval".data then RgRun.ran 2 [] else okEnv p)
      [("sec".data, ["eval".data, "exec".data])] []).1
      (by
        intro p
        by_cases hp : p = "eval".data <;> simp [hp, okEnv]),
   (C3_missing_tool_amended
      (fun p => if p = "eval".data then RgRun.ran 2 [] else okEnv p)
      [] []).2 "sec".data "eval".data 2 []
      (by simp) (by decide)⟩

/-! ## Claim C4 -/

/-- C4 counterexample: the standalone converter `json_to_csv.py` is a
serialization entry point whose `fieldnames` stop at `line_content`: it
has no `matched_text` column, so its rows differ from the scanner's own
converter on the same report.  This refutes the claim that EVERY
serialization entry point emits all six finding fields. -/
theorem C4_csv_fields_cex :
    "matched_text".data ∉ json_to_csv_fieldnames
    ∧ "matched_text".data ∈ enhanced_fieldnames
    ∧ jsonToCsvRows [("r".data, [sampleFinding])] ≠
        enhancedCsvRows [("r".data, [sampleFinding])] := by
  refine ⟨by decide, by decide, by decide⟩

/-- C4 as amended: the scanner's own converter
(`enhanced_scanner_json.convert_json_to_csv`) emits, per finding, exactly
the `repository` column followed by `file_path, line_number, category,
pattern_found, line_content, matched_text` in that order; the standalone
`json_to_csv.py` converter emits the same row minus the trailing
`matched_text` column. -/
theorem C4_csv_fields_amended :
    enhanced_fieldnames =
      ["repository".data, "file_path".data, "line_number".data,
       "category".data, "pattern_found".data, "line_content".data,
       "matched_text".data]
    ∧ (∀ (repo : Str) (f : Finding),
        enhancedCsvRows [(repo, [f])] =
          [[repo, f.file_path, intToStr f.line_number, f.category,
            f.pattern_found, f.line_content, f.matched_text]])
    ∧ json_to_csv_fieldnames = enhanced_fieldnames.dropLast
    ∧ (∀ (repo : Str) (f : Finding),
        jsonToCsvRows [(repo, [f])] = [(enhancedRow repo f).dropLast]) :=
  ⟨rfl, fun _ _ => rfl, rfl, fun _ _ => rfl⟩

/-- Witness for the amended C4 at a concrete report. -/
theorem C4_csv_fields_amended_witness :
    enhancedCsvRows [("r".data, [sampleFinding])] =
      [["r".data, "a.py".data, "1".data, "sec".data, "eval".data,
        "eval(x)".data, "eval".data]]
    ∧ jsonToCsvRows [("r".data, [sampleFinding])] =
        [(enhancedRow "r".data sampleFinding).dropLast] := by
  refine ⟨?_, C4_csv_fields_amended.2.2.2 "r".data sampleFinding⟩
  rw [C4_csv_fields_amended.2.1 "r".data sampleFinding]
  decide

/-! ## Decimal and splitting lemmas for C10 -/

/-- A decimal digit character is never a colon. -/
theorem digitChar_ne_colon : ∀ d : Nat, digitChar d ≠ ':' := by
  intro d
  rcases d with _ | _ | _ | _ | _ | _ | _ | _ | _ | d
  case succ.succ.succ.succ.succ.succ.succ.succ.succ =>
    intro h
    have h9 : ('9' : Char) = ':' := h
    exact absurd h9 (by decide)
  all_goals decide

/-- The decimal expansion never introduces a colon. -/
theorem colon_not_in_natDigitsAux :
    ∀ (fuel n : Nat) (acc : Str), ':' ∉ acc → ':' ∉ natDigitsAux fuel n acc := by
  intro fuel
  induction fuel with
  | zero => intro n acc hacc; exact hacc
  | succ k ih =>
    intro n acc hacc
    rw [natDigitsAux]
    by_cases hn : n = 0
    · rw [if_pos hn]; exact hacc
    · rw [if_neg hn]
      apply ih
      intro hmem
      rcases List.mem_cons.mp hmem with h | h
      · exact digitChar_ne_colon (n % 10) h.symm
      · exact hacc h

/-- ripgrep's printed line number contains no colon. -/
theorem colon_not_in_natDigits (n : Nat) : ':' ∉ natDigits n := by
  rw [natDigits]
  by_cases hn : n = 0
  · rw [if_pos hn]; decide
  · rw [if_neg hn]
    exact colon_not_in_natDigitsAux (n + 1) n [] (by decide)

/-- Splitting at the first colon of `a ++ ':' :: b` recovers `(a, b)` when
`a` is colon-free. -/
theorem breakColon_append :
    ∀ (a b : Str), ':' ∉ a → breakColon (a ++ ':' :: b) = some (a, b) := by
  intro a
  induction a with
  | nil => intro b _; rw [List.nil_append, breakColon]; simp
  | cons c cs ih =>
    intro b hmem
    have hc : (c == ':') = false :=
      beq_eq_false_iff_ne.mpr (fun h => hmem (h ▸ List.mem_cons_self c cs))
    rw [List.cons_append, breakColon]
    rw [ih b (fun h => hmem (List.mem_cons_of_mem c h))]
    simp [hc]

/-! ## Claim C10 -/

/-- C10: search-output parsing splits each stdout line on its first two
colons into (file path, line number, line content) — correct whenever the
file path is colon-free — and converts the middle part with an unguarded
`int(...)`; for a matching file whose path contains a colon the middle
part is a path fragment, the conversion raises `ValueError`, and the scan
aborts instead of producing a finding or skipping the file (shown at the
concrete file `a:b.py`). -/
theorem C10_colon_parsing :
    (∀ (fp content : Str) (n : Nat), ':' ∉ fp →
      pySplitColon2 (rgStdoutLine fp n content) = [fp, natDigits n, content])
    ∧ textScanPattern plainConfig "security".data "eval".data
        [⟨"a:b.py".data, ["x = eval(y)".data]⟩] = Except.error () := by
  constructor
  · intro fp content n hfp
    have h1 : breakColon (fp ++ ':' :: (natDigits n ++ ':' :: content)) =
        some (fp, natDigits n ++ ':' :: content) := breakColon_append _ _ hfp
    have h2 : breakColon (natDigits n ++ ':' :: content) =
        some (natDigits n, content) :=
      breakColon_append _ _ (colon_not_in_natDigits n)
    have heq : rgStdoutLine fp n content =
        fp ++ ':' :: (natDigits n ++ ':' :: content) := by
      rw [rgStdoutLine, List.append_assoc]
      rfl
    simp only [heq, pySplitColon2, h1, h2]
  · rfl

/-- Witness for C10 at a colon-free path: the ripgrep line for `a.py`,
line 17, splits back into its three fields. -/
theorem C10_colon_parsing_witness :
    pySplitColon2 (rgStdoutLine "a.py".data 17 "x = eval(y)".data) =
      ["a.py".data, natDigits 17, "x = eval(y)".data] :=
  C10_colon_parsing.1 "a.py".data "x = eval(y)".data 17 (by decide)

end ContentAnalyzer
